import Mathlib

/-!
Verification of the USB rubber-ducky defender core.

This file shallowly embeds the keystroke feature extractor and anomaly
classifier (`ml.py`, class `USBRubberDuckyDetector`), the device registry
and monitoring-side observation logic (`usb_monitor.py` /
`usb_linux.py`, `check_or_insert_device` and `analyze_device_with_ml`),
serial normalization (`usb_linux.py` and `usb_monitor.py`), and the
dashboard administrative action handler (`server.py`, `update_device`),
and proves the spec's claims about them.

Conventions of the embedding:
- Python floats are modelled as exact rationals (`ℚ`); all the relevant
  arithmetic in the source (rates, averages, variance) is closed over ℚ.
- Python strings are modelled as `List Char` (`Str`), and the string
  primitives the source uses (`lower`, `replace`, `strip`, `split`,
  `join`, `isprintable`, regex word-boundary search) are given
  structurally recursive models so that every definition evaluates
  inside the kernel. Character classification (`str.isprintable`,
  regex `\w`, `str.strip`) is modelled over the ASCII range, which is
  the range exercised by the key labels and serials of this program.
- The trained RandomForest is opaque: it is modelled as an abstract pair
  of functions (predicted class, probability of the predicted class).
- The SQLite table `device_details` is modelled as a list of rows in
  rowid order plus the autoincrement counter; `SELECT ... fetchone` is
  `List.find?`, `UPDATE ... WHERE` is a guarded `List.map`, `INSERT` is
  an append.
- Reason strings built with f-strings are modelled as an inductive
  `Reason` carrying the interpolated value, so that the numeric content
  of the message is preserved exactly.
-/

/-- A Python string, as a list of characters. -/
abbrev Str := List Char

/-- Coerce a Lean string literal into the model's string type. -/
def str (s : String) : Str := s.toList

/-- Python `ch.isprintable()` for a single character, modelled on the
ASCII range: the printable ASCII characters are 0x20 (space) .. 0x7e. -/
def pyPrintable (c : Char) : Bool :=
  0x20 ≤ c.toNat && c.toNat ≤ 0x7e

/-- A regex word character (`\w`), modelled on the ASCII range:
letters, digits and underscore. -/
def isWordChar (c : Char) : Bool :=
  c.isAlpha || c.isDigit || c = '_'

/-- Word-character test on an optional character; a missing character
(string edge) counts as a non-word character, as in regex `\b`. -/
def isWordCharOpt : Option Char → Bool
  | none => false
  | some c => isWordChar c

/-- Python `s.lower()` (ASCII case folding, which is all the key labels
exercise). -/
def pyLower (s : Str) : Str := s.map Char.toLower

/-- Python `s.replace(pat, rep)` for a non-empty pattern: replace all
occurrences, scanning left to right without overlap. The first
argument is fuel, consumed once per emitted position; the initial fuel
`s.length` always suffices. -/
def pyReplaceFuel (pat rep : Str) : ℕ → Str → Str
  | _, [] => []
  | 0, l => l
  | fuel + 1, c :: rest =>
    if pat ≠ [] ∧ (c :: rest).take pat.length = pat then
      rep ++ pyReplaceFuel pat rep fuel ((c :: rest).drop pat.length)
    else
      c :: pyReplaceFuel pat rep fuel rest

/-- Python `s.replace(pat, rep)` (the source only replaces non-empty
patterns). -/
def pyReplace (s pat rep : Str) : Str :=
  pyReplaceFuel pat rep s.length s

/-- `ml.py` line 149: key-label canonicalization
`k.lower().replace('key.', '').replace('win_l','win').replace('win_r','win')`. -/
def canonKey (k : Str) : Str :=
  pyReplace (pyReplace (pyReplace (pyLower k) (str "key.") []) (str "win_l") (str "win"))
    (str "win_r") (str "win")

/-- `len(klow) == 1 and klow.isprintable()` (`ml.py` line 154). -/
def singlePrintable (s : Str) : Bool :=
  match s with
  | [c] => pyPrintable c
  | _ => false

/-- The word-buffer tokenizer loop of `extract_features`
(`ml.py` lines 146-162): `word` is the pending buffer; a space flushes
the buffer, a printable single character extends it, any other named key
flushes the buffer and is emitted as its own token. -/
def tokenizeKeys : List Str → Str → List Str
  | [], word => if word = [] then [] else [word]
  | k :: rest, word =>
    let klow := canonKey k
    if klow = str "space" then
      (if word = [] then [] else [word]) ++ tokenizeKeys rest []
    else if singlePrintable klow then
      tokenizeKeys rest (word ++ klow)
    else
      (if word = [] then [] else [word]) ++ klow :: tokenizeKeys rest []

/-- Full tokenization of the raw key labels of a window
(`keys` in `extract_features`). -/
def tokenize (keysRaw : List Str) : List Str :=
  tokenizeKeys keysRaw []

/-- `np.diff`: adjacent differences of the timestamp list. -/
def listDiff (ts : List ℚ) : List ℚ :=
  (ts.zip ts.tail).map fun p => p.2 - p.1

/-- Arithmetic mean of a list of rationals (0 for the empty list,
matching the guarded uses in the source, which never pass []). -/
def listMean (l : List ℚ) : ℚ :=
  l.sum / l.length

/-- `np.var`: population variance, the mean of squared deviations. -/
def listVar (l : List ℚ) : ℚ :=
  listMean (l.map fun x => (x - listMean l) ^ 2)

/-- The single-quote character, written by code point to keep the
source file free of literal apostrophes. -/
def squote : Char := Char.ofNat 39

/-- `ml.py` lines 11-83: `COMMAND_KEYWORDS`, verbatim. -/
def COMMAND_KEYWORDS : List Str :=
  [str "net", str "tasklist", str "taskkill", str "reg", str "wmic",
   str "schtasks", str "sc", str "at", str "rundll32", str "del",
   str "copy", str "attrib", str "netsh", str "certutil", str "cmd",
   str "powershell", str "powershell.exe", str "ping", str "tracert",
   str "nslookup", str "net use", str "net session", str "net view",
   str "net user", str "whoami", str "ipconfig", str "shutdown",
   str "diskpart", str "reg query", str "reg add", str "reg delete",
   str "regedit", str "curl", str "wget", str "-nop", str "-noni",
   str "-enc", str "iex", str ".downloadstring", str "downloadfile",
   str "Base64-encoded commands", str "Reflection.Assembly",
   str "WebClient", str "Invoke-WebRequest", str "reagentc",
   str "recover", str "MpCmdRun -Scan -ScanType 2",
   str "whoami /groups", str "qprocess", str "query", str "net start",
   str "net group", str "net config", str "net share", str "dsquery",
   str "csvde", str "wusa",
   str "powershell -Command Start-Process cmd -ArgumentList "
     ++ [squote] ++ str "/c ..." ++ [squote],
   str "PsExec", str "WMIExec", str "SMBExec", str "mshta", str "ssh",
   str "scp", str "Invoke-Command", str "Get-ADUser", str "Get-ADGroup",
   str "Get-Credential", str "Invoke-Expression",
   str "Set-ExecutionPolicy"]

/-- One step of `re.findall(r"\b<kw>\b", text)` counting for a literal
(`re.escape`d) keyword `k0 :: krest`: scan the text left to right; at a
match (substring equality plus `\b` word-boundaries on both sides)
count it and resume after the match, otherwise advance one character.
`prevW` says whether the character just before the current position is
a word character. The first argument is fuel, consumed once per
position; the initial fuel `text.length` always suffices. -/
def scanCountAux (k0 : Char) (krest : Str) : ℕ → Str → Bool → ℕ
  | 0, _, _ => 0
  | _ + 1, [], _ => 0
  | fuel + 1, c :: rest, prevW =>
    let kw := k0 :: krest
    if (c :: rest).take kw.length = kw
        && (prevW != isWordChar k0)
        && (isWordChar (krest.getLastD k0) != isWordCharOpt ((c :: rest).drop kw.length).head?) then
      1 + scanCountAux k0 krest fuel ((c :: rest).drop kw.length) (isWordChar (krest.getLastD k0))
    else
      scanCountAux k0 krest fuel rest (isWordChar c)

/-- `len(re.findall(r"\b{}\b".format(re.escape(kw)), typed_text))`
(`ml.py` line 180) for one keyword. -/
def scanCount (text kw : Str) : ℕ :=
  match kw with
  | [] => 0
  | k0 :: krest => scanCountAux k0 krest text.length text false

/-- The feature dictionary returned by `extract_features`
(`ml.py` lines 183-192). -/
structure Features where
  total_keys_5sec : ℕ
  avg_speed : ℚ
  error_rate : ℚ
  command_rate : ℚ
  keyword_rate : ℚ
  variance : ℚ
  terminal_triggered : Bool
  typed_text : Str
deriving DecidableEq, Repr

/-- `error_keys = ['backspace', 'delete']` (`ml.py` line 164). -/
def error_keys : List Str := [str "backspace", str "delete"]

/-- `command_keys = ['enter', 'return']` (`ml.py` line 166). -/
def command_keys : List Str := [str "enter", str "return"]

/-- `terminal_commands` (`ml.py` line 170). -/
def terminal_commands : List Str :=
  [str "cmd", str "powershell", str "terminal", str "bash", str "sh",
   str "zsh"]

/-- One iteration of the adjacency scan of `extract_features`
(`ml.py` lines 171-179): does the pair `(k1, k2)` set
`terminal_triggered`? -/
def pairHit (k1 k2 : Str) : Bool :=
  ((k1 = str "cmd" && k2 = str "r") || (k1 = str "win" && k2 = str "r"))
  || (decide (k1 ∈ terminal_commands) && decide (k2 ∈ command_keys))
  || (k1 = str "sudo" && k2 = str "apt")

/-- The full adjacency scan over consecutive token pairs: true iff some
adjacent pair of tokens sets `terminal_triggered`. -/
def hasTrigger : List Str → Bool
  | k1 :: k2 :: rest => pairHit k1 k2 || hasTrigger (k2 :: rest)
  | _ => false

/-- The feature computation of `USBRubberDuckyDetector.extract_features`
(`ml.py` lines 141-192), for a window that passed the length guard. -/
def featuresOf (keystrokes : List (ℚ × Str)) : Features :=
  let n := keystrokes.length
  let ts := keystrokes.map Prod.fst
  let dfs := listDiff ts
  let duration := ts.getLastD 0 - ts.headD 0
  let avg_speed := (n : ℚ) / (duration + 1 / 1000)
  let keys := tokenize (keystrokes.map Prod.snd)
  let total_keys := n
  let error_rate := (keys.countP (fun k => decide (k ∈ error_keys)) : ℚ) / ((max 1 total_keys : ℕ) : ℚ)
  let command_rate := (keys.countP (fun k => decide (k ∈ command_keys)) : ℚ) / ((max 1 total_keys : ℕ) : ℚ)
  let typed_text := List.intercalate [' '] keys
  let terminal_triggered := hasTrigger keys
  let keyword_count := (COMMAND_KEYWORDS.map fun kw => scanCount typed_text kw).sum
  let keyword_rate := (keyword_count : ℚ) / ((max 1 (typed_text.filter (fun c => c ≠ ' ')).length : ℕ) : ℚ)
  let variance := if dfs.length > 0 then listVar dfs else 0
  { total_keys_5sec := total_keys
    avg_speed := avg_speed
    error_rate := error_rate
    command_rate := command_rate
    keyword_rate := keyword_rate
    variance := variance
    terminal_triggered := terminal_triggered
    typed_text := typed_text }

/-- `USBRubberDuckyDetector.extract_features` (`ml.py` lines 137-192)
over a keystroke window of (timestampSeconds, keyLabel) pairs. Returns
`none` when the window has fewer than 2 events (`ml.py` lines 138-140). -/
def extract_features (keystrokes : List (ℚ × Str)) : Option Features :=
  if keystrokes.length < 2 then none
  else some (featuresOf keystrokes)

/-- The classifier's verdict label, the string `'USB_DUCKY'` or
`'HUMAN'` in `ml.py`. -/
inductive Classification where
  | USB_DUCKY
  | HUMAN
deriving DecidableEq, Repr

/-- The trigger-reason messages appended by `predict`
(`ml.py` lines 195-224), with each f-string's interpolated value
carried as data. -/
inductive Reason where
  | extremeTypingSpeed (speed : ℚ)
  | terminalOpenSequence
  | highNumberOfKeys (total : ℕ)
  | veryLowErrorRate (rate : ℚ)
  | highCommandRate (rate : ℚ)
  | highKeywordRate (rate : ℚ)
  | mlModelClassification
deriving DecidableEq, Repr

/-- The trained RandomForest, opaque to this development: `predictClass`
is `model.predict(vector)[0] == 1` and `probaOfPred` is
`model.predict_proba(vector)[0][pred]` (the probability of the
predicted class). -/
structure Model where
  predictClass : List ℚ → Bool
  probaOfPred : List ℚ → ℚ

/-- The fields of `USBRubberDuckyDetector.__init__`
(`ml.py` lines 87-94): the optional loaded model and the fixed
thresholds. -/
structure USBRubberDuckyDetector where
  model : Option Model
  ducky_threshold_5sec : ℚ := 500
  rubberducky_speed_threshold : ℚ := 100
  error_rate_threshold : ℚ := 1 / 50
  command_rate_threshold : ℚ := 1 / 5
  keyword_rate_threshold : ℚ := 1 / 10

/-- A detector with the default `__init__` thresholds and the given
(possibly absent) trained model. -/
def mkDetector (m : Option Model) : USBRubberDuckyDetector :=
  { model := m }

/-- `USBRubberDuckyDetector.predict` (`ml.py` lines 194-225). Returns
`(result, confidence, trigger_reason)`; `result`/`confidence` are
`none` exactly on the Python `return None, None, []` path. -/
def predict (d : USBRubberDuckyDetector) (features : Features) :
    Option Classification × Option ℚ × List Reason :=
  if features.avg_speed ≥ d.rubberducky_speed_threshold then
    (some .USB_DUCKY, some 100, [Reason.extremeTypingSpeed features.avg_speed])
  else if features.terminal_triggered then
    (some .USB_DUCKY, some 100, [Reason.terminalOpenSequence])
  else
    match d.model with
    | none => (none, none, [])
    | some m =>
      let vector := [features.avg_speed, features.error_rate,
        features.command_rate, features.keyword_rate,
        (features.total_keys_5sec : ℚ), features.variance]
      let pred := m.predictClass vector
      let conf := m.probaOfPred vector * 100
      if pred then
        let r1 := if (features.total_keys_5sec : ℚ) > d.ducky_threshold_5sec then
          [Reason.highNumberOfKeys features.total_keys_5sec] else []
        let r2 := if features.error_rate < d.error_rate_threshold then
          [Reason.veryLowErrorRate features.error_rate] else []
        let r3 := if features.command_rate > d.command_rate_threshold then
          [Reason.highCommandRate features.command_rate] else []
        let r4 := if features.keyword_rate > d.keyword_rate_threshold then
          [Reason.highKeywordRate features.keyword_rate] else []
        let rs := r1 ++ r2 ++ r3 ++ r4
        (some .USB_DUCKY, some conf,
          if rs = [] then [Reason.mlModelClassification] else rs)
      else
        (some .HUMAN, some conf, [])

/-- The `device_type` column values written by this program:
`'unknown'`, `'whitelisted'`, `'blocked'`. -/
inductive DeviceType where
  | unknown
  | whitelisted
  | blocked
deriving DecidableEq, Repr

/-- The `threat_level` column values written by this program:
`'unknown'`, `'low'`, `'high'`. -/
inductive ThreatLevel where
  | unknown
  | low
  | high
deriving DecidableEq, Repr

/-- One row of the `device_details` table
(`usb_monitor.py` lines 20-30). `last_seen` is an abstract timestamp. -/
structure Row where
  id : ℕ
  usb_vid : Str
  usb_pid : Str
  usb_serial : Str
  device_type : DeviceType
  threat_level : ThreatLevel
  last_seen : ℕ
deriving DecidableEq, Repr

/-- The `device_details` table: rows in rowid order plus the
autoincrement counter. -/
structure DB where
  rows : List Row
  nextId : ℕ
deriving DecidableEq, Repr

/-- The identity key of a row: `(usb_vid, usb_pid, usb_serial)`. -/
def rowKey (r : Row) : Str × Str × Str :=
  (r.usb_vid, r.usb_pid, r.usb_serial)

/-- The SQL predicate `usb_vid=? AND usb_pid=? AND usb_serial=?`. -/
def keyMatch (vid pid serial : Str) (r : Row) : Bool :=
  r.usb_vid = vid && r.usb_pid = pid && r.usb_serial = serial

/-- `SELECT ... WHERE usb_vid=? AND usb_pid=? AND usb_serial=?` with
`fetchone`: the first matching row in rowid order. -/
def DB.findByKey (db : DB) (vid pid serial : Str) : Option Row :=
  db.rows.find? (keyMatch vid pid serial)

/-- `UPDATE device_details SET last_seen=CURRENT_TIMESTAMP WHERE id=?`
(`usb_monitor.py` lines 82-85), with `now` standing for
`CURRENT_TIMESTAMP`. -/
def DB.touchLastSeen (db : DB) (rid now : ℕ) : DB :=
  { db with rows := db.rows.map fun r =>
      if r.id = rid then { r with last_seen := now } else r }

/-- `UPDATE device_details SET ... WHERE usb_vid=? AND usb_pid=? AND
usb_serial=?`: apply the field update to every row matching the key. -/
def DB.updateByKey (db : DB) (vid pid serial : Str) (f : Row → Row) : DB :=
  { db with rows := db.rows.map fun r =>
      if keyMatch vid pid serial r then f r else r }

/-- `INSERT INTO device_details (...) VALUES (?, ?, ?, 'unknown',
'unknown')` (`usb_monitor.py` lines 102-105). -/
def DB.insertUnknown (db : DB) (vid pid serial : Str) (now : ℕ) : DB :=
  { rows := db.rows ++
      [{ id := db.nextId, usb_vid := vid, usb_pid := pid,
         usb_serial := serial, device_type := .unknown,
         threat_level := .unknown, last_seen := now }]
    nextId := db.nextId + 1 }

/-- A call into the Enforcement Gateway (`allow_block.py`):
`block_device(vid, pid, devcon_path)` or
`allow_device(vid, pid, devcon_path)`. -/
inductive EnfCall where
  | block (vid pid : Str)
  | allow (vid pid : Str)
deriving DecidableEq, Repr

/-- `analyze_device_with_ml` (`usb_monitor.py` lines 114-184), run
against an already-captured keystroke window (`capture_5_seconds` is an
environment input). Returns the updated table, the Enforcement Gateway
calls issued, and whether the classifier (`ml_detector.predict`) was
consulted; `devcon` says whether `devcon_path` was found at startup.
The `.error` outcome is the uncaught `TypeError` raised by the
`print` of `Confidence` formatted with a float format when `predict`
returned `confidence = None` (formatting `None` that way raises). -/
def analyze_device_with_ml (d : USBRubberDuckyDetector) (devcon : Bool)
    (keystrokes : List (ℚ × Str)) (vid pid serial : Str) (db : DB) :
    Except String (DB × List EnfCall × Bool) :=
  match extract_features keystrokes with
  | none => .ok (db, [], false)
  | some features =>
    if features.total_keys_5sec < 5 then .ok (db, [], false)
    else
      match (predict d features).2.1 with
      | none => .error "TypeError: unsupported format string passed to NoneType"
      | some _ =>
        if (predict d features).1 = some Classification.USB_DUCKY then
          .ok (db.updateByKey vid pid serial
                 (fun r => { r with threat_level := .high, device_type := .blocked }),
               if devcon then [EnfCall.block vid pid] else [], true)
        else
          .ok (db.updateByKey vid pid serial
                 (fun r => { r with threat_level := .low }),
               [], true)

/-- `check_or_insert_device` (`usb_monitor.py` lines 65-112). The last
component of the result records whether `analyze_device_with_ml` was
invoked for this observation. -/
def check_or_insert_device (d : USBRubberDuckyDetector) (devcon : Bool)
    (keystrokes : List (ℚ × Str)) (vid pid serial : Str) (now : ℕ)
    (db : DB) : Except String (DB × List EnfCall × Bool) :=
  match db.findByKey vid pid serial with
  | some row =>
    let db1 := db.touchLastSeen row.id now
    match row.device_type with
    | .whitelisted => .ok (db1, [], false)
    | .blocked => .ok (db1, [], false)
    | .unknown =>
      match analyze_device_with_ml d devcon keystrokes vid pid serial db1 with
      | .error e => .error e
      | .ok (db2, calls, _) => .ok (db2, calls, true)
  | none =>
    let db1 := db.insertUnknown vid pid serial now
    match analyze_device_with_ml d devcon keystrokes vid pid serial db1 with
    | .error e => .error e
    | .ok (db2, calls, _) => .ok (db2, calls, true)

/-- One observation event delivered by the monitoring loop: an identity
key plus the environment inputs of the pass (the `CURRENT_TIMESTAMP`
and the keystroke window `capture_5_seconds` would return). -/
structure Obs where
  usb_vid : Str
  usb_pid : Str
  usb_serial : Str
  now : ℕ
  keystrokes : List (ℚ × Str)

/-- The identity key of an observation. -/
def Obs.key (o : Obs) : Str × Str × Str :=
  (o.usb_vid, o.usb_pid, o.usb_serial)

/-- A sequence of `check_or_insert_device` calls, as issued by the
monitoring loop. Returns the final table and the per-observation
"analysis invoked" flags; stops at an uncaught exception. -/
def runObs (d : USBRubberDuckyDetector) (devcon : Bool) :
    List Obs → DB → Except String (DB × List Bool)
  | [], db => .ok (db, [])
  | o :: rest, db =>
    match check_or_insert_device d devcon o.keystrokes o.usb_vid o.usb_pid
        o.usb_serial o.now db with
    | .error e => .error e
    | .ok (db1, _, inv) =>
      match runObs d devcon rest db1 with
      | .error e => .error e
      | .ok (db2, flags) => .ok (db2, inv :: flags)

/-- `update_device` (`server.py` lines 49-105): the dashboard action
handler for `allow` / `block` / `remove`, returning the updated table,
the Enforcement Gateway calls issued, and the HTTP status code. -/
def update_device (devcon : Bool) (device_id : ℕ) (action : Str)
    (db : DB) : DB × List EnfCall × ℕ :=
  match db.rows.find? (fun r => r.id = device_id) with
  | none => (db, [], 404)
  | some row =>
    if action = str "allow" then
      ({ db with rows := db.rows.map fun r =>
           if r.id = device_id then
             { r with device_type := .whitelisted, threat_level := .low }
           else r },
       if devcon then [EnfCall.allow row.usb_vid row.usb_pid] else [], 200)
    else if action = str "block" then
      ({ db with rows := db.rows.map fun r =>
           if r.id = device_id then
             { r with device_type := .blocked, threat_level := .high }
           else r },
       if devcon then [EnfCall.block row.usb_vid row.usb_pid] else [], 200)
    else if action = str "remove" then
      ({ db with rows := db.rows.filter fun r => r.id ≠ device_id }, [], 200)
    else
      (db, [], 400)

/-- Python whitespace for `str.strip()`, modelled on the ASCII range. -/
def pyWhitespace (c : Char) : Bool :=
  c = ' ' || c = '\t' || c = '\n' || c = '\x0b' || c = '\x0c' || c = '\r'

/-- Python `s.strip()`: drop leading and trailing whitespace. -/
def pyStrip (s : Str) : Str :=
  ((s.dropWhile pyWhitespace).reverse.dropWhile pyWhitespace).reverse

/-- `normalize_serial` (`usb_linux.py` lines 55-63): `None` or empty
becomes `"NoSerial"`; otherwise keep the printable characters, strip
surrounding whitespace, and fall back to `"NoSerial"` if nothing is
left. (The `try/except` cannot fire for a string argument.) -/
def normalize_serial (serial : Option Str) : Str :=
  match serial with
  | none => str "NoSerial"
  | some s =>
    if s = [] then str "NoSerial"
    else
      let t := pyStrip (s.filter pyPrintable)
      if t = [] then str "NoSerial" else t

/-- `normalize_serial` (`usb_monitor.py` lines 54-55, Windows variant):
`serial.split('&')[0] if serial else 'NoSerial'`; `split('&')[0]` is
the prefix before the first ampersand. -/
def normalize_serial_windows (serial : Option Str) : Str :=
  match serial with
  | none => str "NoSerial"
  | some s =>
    if s = [] then str "NoSerial"
    else s.takeWhile (fun c => c ≠ '&')

/-- Uniqueness of the identity key in the registry (spec §3): no two
rows share `(usb_vid, usb_pid, usb_serial)`. -/
def KeyUnique (db : DB) : Prop :=
  db.rows.Pairwise fun a b => rowKey a ≠ rowKey b

/-- A concrete stand-in trained model, used to instantiate theorems
that hold for every model. -/
def trivialModel : Model :=
  { predictClass := fun _ => true, probaOfPred := fun _ => 1 }

/-- A concrete feature vector with extreme speed and every other
signal adversarially set, used to witness the speed override. -/
def fastFeatures : Features :=
  { total_keys_5sec := 3, avg_speed := 600, error_rate := 1,
    command_rate := 1, keyword_rate := 1, variance := 1,
    terminal_triggered := true, typed_text := [] }

/-- A 3-keystroke window: `a`, `b`, backspace at seconds 0, 1, 2. -/
def cexWindow : List (ℚ × Str) :=
  [(0, str "a"), (1, str "b"), (2, str "Key.backspace")]

/-- A 600-keystroke window typed uniformly over 1 second
(timestamps i/599 for i < 600), with no backspaces and no enters. -/
def w600 : List (ℚ × Str) :=
  (List.range 600).map fun i : ℕ => ((i : ℚ) / 599, str "a")

/-- A slow 5-keystroke window (1 key per second), producing no
override signals. -/
def slowWindow : List (ℚ × Str) :=
  [(0, str "a"), (1, str "b"), (2, str "c"), (3, str "d"), (4, str "e")]

/-- A 2-keystroke window pressing the left Windows key then `r`. -/
def winR : List (ℚ × Str) :=
  [(0, str "Key.win_l"), (1, str "r")]

/-- A 2-keystroke window, for the small-window witness. -/
def twoKeys : List (ℚ × Str) :=
  [(0, str "a"), (1, str "b")]

/-- A concrete observation of the identity key (0781, 5567, AB12) at
time 10 with an empty capture window. -/
def obsA : Obs :=
  { usb_vid := str "0781", usb_pid := str "5567",
    usb_serial := str "AB12", now := 10, keystrokes := [] }

/-- The same identity key observed again at time 20. -/
def obsB : Obs :=
  { usb_vid := str "0781", usb_pid := str "5567",
    usb_serial := str "AB12", now := 20, keystrokes := [] }

/-- The empty registry. -/
def dbEmpty : DB := { rows := [], nextId := 1 }

/-- A registry row for (0781, 5567, AB12), already whitelisted. -/
def rowWL : Row :=
  { id := 7, usb_vid := str "0781", usb_pid := str "5567",
    usb_serial := str "AB12", device_type := .whitelisted,
    threat_level := .low, last_seen := 0 }

/-- A registry holding just the whitelisted row `rowWL`. -/
def dbWL : DB := { rows := [rowWL], nextId := 8 }

/-- The registry produced by observing (0781, 5567, AB12) twice from an
empty table (insert at time 10, re-observe at time 20). -/
def dbAfterTwo : DB :=
  { rows := [{ id := 1, usb_vid := str "0781", usb_pid := str "5567",
               usb_serial := str "AB12", device_type := .unknown,
               threat_level := .unknown, last_seen := 20 }],
    nextId := 2 }

/-- The registry produced by re-observing the whitelisted row of `dbWL`
at time 20: only `last_seen` moves. -/
def dbWLAfter : DB :=
  { rows := [{ rowWL with last_seen := 20 }], nextId := 8 }

theorem extract_features_eq_some {ks : List (ℚ × Str)} (h : 2 ≤ ks.length) :
    extract_features ks = some (featuresOf ks) := by
  unfold extract_features
  rw [if_neg (by omega)]

theorem extract_features_some_inv {ks : List (ℚ × Str)} {f : Features}
    (h : extract_features ks = some f) : 2 ≤ ks.length ∧ f = featuresOf ks := by
  unfold extract_features at h
  split at h
  · exact Option.noConfusion h
  · next hlt => exact ⟨by omega, (Option.some.inj h).symm⟩

theorem featuresOf_total (ks : List (ℚ × Str)) :
    (featuresOf ks).total_keys_5sec = ks.length := rfl

theorem featuresOf_error_rate (ks : List (ℚ × Str)) :
    (featuresOf ks).error_rate
      = ((tokenize (ks.map Prod.snd)).countP (fun k => decide (k ∈ error_keys)) : ℚ)
          / ((max 1 ks.length : ℕ) : ℚ) := rfl

theorem featuresOf_command_rate (ks : List (ℚ × Str)) :
    (featuresOf ks).command_rate
      = ((tokenize (ks.map Prod.snd)).countP (fun k => decide (k ∈ command_keys)) : ℚ)
          / ((max 1 ks.length : ℕ) : ℚ) := rfl

theorem featuresOf_terminal (ks : List (ℚ × Str)) :
    (featuresOf ks).terminal_triggered = hasTrigger (tokenize (ks.map Prod.snd)) := rfl

theorem featuresOf_avg_speed (ks : List (ℚ × Str)) :
    (featuresOf ks).avg_speed
      = (ks.length : ℚ)
          / ((ks.map Prod.fst).getLastD 0 - (ks.map Prod.fst).headD 0 + 1 / 1000) := rfl

theorem predict_speed_case (d : USBRubberDuckyDetector) (f : Features)
    (h : f.avg_speed ≥ d.rubberducky_speed_threshold) :
    predict d f = (some Classification.USB_DUCKY, some 100,
      [Reason.extremeTypingSpeed f.avg_speed]) := by
  unfold predict
  rw [if_pos h]

/-- C1: whenever `avgKeysPerSecond` is at least the detector's speed
threshold (default 100 keys/sec), `predict` returns `USB_DUCKY` with
confidence 100 and the extreme-typing-speed reason, regardless of every
other feature value and regardless of the (possibly absent) trained
model, which is not consulted. -/
theorem predict_speed_override (d : USBRubberDuckyDetector) (f : Features)
    (h : f.avg_speed ≥ d.rubberducky_speed_threshold) :
    predict d f = (some Classification.USB_DUCKY, some 100,
      [Reason.extremeTypingSpeed f.avg_speed]) :=
  predict_speed_case d f h

theorem predict_speed_override_witness :
    fastFeatures.avg_speed ≥ (mkDetector (some trivialModel)).rubberducky_speed_threshold ∧
    predict (mkDetector (some trivialModel)) fastFeatures
      = (some Classification.USB_DUCKY, some 100,
         [Reason.extremeTypingSpeed fastFeatures.avg_speed]) := by
  have h : fastFeatures.avg_speed ≥ (mkDetector (some trivialModel)).rubberducky_speed_threshold := by
    show (600 : ℚ) ≥ 100
    norm_num
  exact ⟨h, predict_speed_override _ _ h⟩

/-- C5 counterexample: on the window `a`, `b`, backspace, the code
computes `errorRate = 1/3` (one backspace token over the three raw
keystrokes), while the fraction of backspace/delete tokens among the
two produced tokens is 1/2; the claim's denominator (number of tokens)
disagrees with the code's denominator (number of raw keystrokes). -/
theorem error_rate_denominator_cex :
    (extract_features cexWindow).map Features.error_rate = some (1 / 3) ∧
    ((tokenize (cexWindow.map Prod.snd)).countP (fun k => decide (k ∈ error_keys)) : ℚ)
        / ((tokenize (cexWindow.map Prod.snd)).length : ℚ) = 1 / 2 ∧
    (1 : ℚ) / 3 ≠ 1 / 2 := by
  have hc : (tokenize (cexWindow.map Prod.snd)).countP (fun k => decide (k ∈ error_keys)) = 1 := by
    decide
  have hl : (tokenize (cexWindow.map Prod.snd)).length = 2 := by decide
  refine ⟨?_, ?_, by norm_num⟩
  · rw [extract_features_eq_some (by decide : 2 ≤ cexWindow.length)]
    simp only [Option.map_some']
    congr 1
  · rw [hc, hl]
    norm_num

/-- C5 (amended): `errorRate` is the number of backspace/delete tokens
divided by `max 1 totalKeys` where `totalKeys` is the raw keystroke
count of the window (not the token count), and `commandRate` likewise
counts enter/return tokens over `max 1 totalKeys`. -/
theorem rates_over_total_keystrokes (ks : List (ℚ × Str)) (f : Features)
    (h : extract_features ks = some f) :
    f.error_rate = ((tokenize (ks.map Prod.snd)).countP (fun k => decide (k ∈ error_keys)) : ℚ)
        / ((max 1 ks.length : ℕ) : ℚ) ∧
    f.command_rate = ((tokenize (ks.map Prod.snd)).countP (fun k => decide (k ∈ command_keys)) : ℚ)
        / ((max 1 ks.length : ℕ) : ℚ) := by
  obtain ⟨-, rfl⟩ := extract_features_some_inv h
  exact ⟨rfl, rfl⟩

theorem rates_over_total_keystrokes_witness :
    (featuresOf cexWindow).error_rate
      = ((tokenize (cexWindow.map Prod.snd)).countP (fun k => decide (k ∈ error_keys)) : ℚ)
          / ((max 1 cexWindow.length : ℕ) : ℚ) ∧
    (featuresOf cexWindow).command_rate
      = ((tokenize (cexWindow.map Prod.snd)).countP (fun k => decide (k ∈ command_keys)) : ℚ)
          / ((max 1 cexWindow.length : ℕ) : ℚ) :=
  rates_over_total_keystrokes cexWindow (featuresOf cexWindow)
    (extract_features_eq_some (by decide))

theorem w600_length : w600.length = 600 := by
  rw [w600, List.length_map, List.length_range]

theorem w600_ts : w600.map Prod.fst = (List.range 600).map fun i : ℕ => (i : ℚ) / 599 := by
  rw [w600, List.map_map]
  rfl

theorem w600_last : (w600.map Prod.fst).getLastD 0 = (599 : ℚ) / 599 := by
  rw [w600_ts, show (600 : ℕ) = 599 + 1 from rfl, List.range_succ, List.map_append]
  simp

theorem w600_head : (w600.map Prod.fst).headD 0 = ((0 : ℕ) : ℚ) / 599 := by
  rw [w600_ts, show (600 : ℕ) = 599 + 1 from rfl, List.range_succ_eq_map]
  simp

theorem w600_avg_speed : (featuresOf w600).avg_speed = 600000 / 1001 := by
  rw [featuresOf_avg_speed, w600_last, w600_head, w600_length]
  norm_num

/-- C6 counterexample: on the 600-keystroke window typed uniformly over
1 second, the code computes `avgKeysPerSecond = 600 / (1 + 1/1000) =
600000/1001 ≈ 599.40`, not 600 (and hence the reason reads 599.40, not
600.00): the epsilon in the denominator shifts the value. -/
theorem uniform600_speed_cex :
    (extract_features w600).map Features.avg_speed = some (600000 / 1001) ∧
    (600000 : ℚ) / 1001 ≠ 600 := by
  constructor
  · rw [extract_features_eq_some (by rw [w600_length]; norm_num)]
    simp only [Option.map_some']
    rw [w600_avg_speed]
  · norm_num

set_option maxRecDepth 1000000 in
theorem w600_no_error_tokens :
    (tokenize (w600.map Prod.snd)).countP (fun k => decide (k ∈ error_keys)) = 0 := by
  decide

set_option maxRecDepth 1000000 in
theorem w600_no_command_tokens :
    (tokenize (w600.map Prod.snd)).countP (fun k => decide (k ∈ command_keys)) = 0 := by
  decide

/-- C6 (amended): on the 600-keystroke uniform 1-second window with no
backspaces and no enters, extraction succeeds with `avgKeysPerSecond =
600000/1001` (≈ 599.40, the 1e-3 epsilon keeps it just under 600),
`errorRate = 0`, `commandRate = 0`, and for every model the classifier
returns `USB_DUCKY` with confidence 100 and exactly the
extreme-typing-speed reason carrying 600000/1001 (rendered 599.40), the
model not being consulted. -/
theorem uniform600_amended (m : Option Model) :
    extract_features w600 = some (featuresOf w600) ∧
    (featuresOf w600).avg_speed = 600000 / 1001 ∧
    (featuresOf w600).error_rate = 0 ∧
    (featuresOf w600).command_rate = 0 ∧
    predict (mkDetector m) (featuresOf w600)
      = (some Classification.USB_DUCKY, some 100,
         [Reason.extremeTypingSpeed (600000 / 1001)]) := by
  have herr : (featuresOf w600).error_rate = 0 := by
    rw [featuresOf_error_rate, w600_no_error_tokens]
    norm_num
  have hcmd : (featuresOf w600).command_rate = 0 := by
    rw [featuresOf_command_rate, w600_no_command_tokens]
    norm_num
  have hfast : (featuresOf w600).avg_speed ≥ (mkDetector m).rubberducky_speed_threshold := by
    rw [w600_avg_speed]
    show (600000 : ℚ) / 1001 ≥ 100
    norm_num
  have hp := predict_speed_case (mkDetector m) (featuresOf w600) hfast
  rw [w600_avg_speed] at hp
  exact ⟨extract_features_eq_some (by rw [w600_length]; norm_num), w600_avg_speed, herr, hcmd, hp⟩

theorem uniform600_amended_witness :
    extract_features w600 = some (featuresOf w600) ∧
    (featuresOf w600).avg_speed = 600000 / 1001 ∧
    (featuresOf w600).error_rate = 0 ∧
    (featuresOf w600).command_rate = 0 ∧
    predict (mkDetector (some trivialModel)) (featuresOf w600)
      = (some Classification.USB_DUCKY, some 100,
         [Reason.extremeTypingSpeed (600000 / 1001)]) :=
  uniform600_amended (some trivialModel)

theorem tokenizeKeys_length_le (l : List Str) (w : Str) :
    (tokenizeKeys l w).length ≤ l.length + (if w = [] then 0 else 1) := by
  induction l generalizing w with
  | nil =>
    by_cases hw : w = [] <;> simp [tokenizeKeys, hw]
  | cons k rest ih =>
    rw [tokenizeKeys]
    split
    · have h := ih []
      by_cases hw : w = [] <;> simp only [hw, if_pos, if_neg, List.length_append,
        List.length_cons, List.length_nil, reduceIte] <;> simp at h <;> omega
    · split
      · have h := ih (w ++ canonKey k)
        have hb : (if w ++ canonKey k = [] then 0 else 1) ≤ 1 := by split <;> omega
        simp only [List.length_cons]
        omega
      · have h := ih []
        simp only [if_pos, List.length_nil] at h
        by_cases hw : w = [] <;> simp only [hw, reduceIte, List.nil_append,
          List.length_cons, List.length_append, List.length_nil] <;> omega

theorem tokenize_length_le (l : List Str) : (tokenize l).length ≤ l.length := by
  have h := tokenizeKeys_length_le l []
  simpa [tokenize] using h

theorem hasTrigger_of_pair : ∀ (keys : List Str) (i : ℕ) (k1 k2 : Str),
    keys[i]? = some k1 → keys[i + 1]? = some k2 → pairHit k1 k2 = true →
    hasTrigger keys = true := by
  intro keys
  induction keys with
  | nil => intro i k1 k2 h1; simp at h1
  | cons a tail ih =>
    intro i k1 k2 h1 h2 hp
    cases i with
    | zero =>
      simp only [List.getElem?_cons_zero, Option.some.injEq] at h1
      cases tail with
      | nil => simp at h2
      | cons b t =>
        simp only [List.getElem?_cons_succ, List.getElem?_cons_zero,
          Option.some.injEq] at h2
        subst h1; subst h2
        rw [hasTrigger, hp, Bool.true_or]
    | succ j =>
      simp only [List.getElem?_cons_succ] at h1 h2
      have htail := ih j k1 k2 h1 h2 hp
      cases tail with
      | nil => simp [hasTrigger] at htail
      | cons b t => rw [hasTrigger, htail, Bool.or_true]

/-- C7: for every keystroke window whose tokenization contains an
adjacent run-dialog-then-"r" pair (`cmd` or `win` followed by `r`) or a
shell-name token immediately followed by enter/return, extraction
succeeds, sets `terminalTriggered = true`, and the classifier returns
`USB_DUCKY` on the resulting features (for every detector/model). -/
theorem terminal_pair_forces_ducky (ks : List (ℚ × Str))
    (d : USBRubberDuckyDetector) (i : ℕ) (k1 k2 : Str)
    (h1 : (tokenize (ks.map Prod.snd))[i]? = some k1)
    (h2 : (tokenize (ks.map Prod.snd))[i + 1]? = some k2)
    (hpair : ((k1 = str "cmd" ∨ k1 = str "win") ∧ k2 = str "r") ∨
             (k1 ∈ terminal_commands ∧ k2 ∈ command_keys)) :
    extract_features ks = some (featuresOf ks) ∧
    (featuresOf ks).terminal_triggered = true ∧
    (predict d (featuresOf ks)).1 = some Classification.USB_DUCKY := by
  have hp : pairHit k1 k2 = true := by
    rcases hpair with ⟨h1c, h2c⟩ | ⟨hm1, hm2⟩
    · subst h2c
      rcases h1c with hc | hc <;> subst hc <;> rfl
    · simp [pairHit, hm1, hm2]
  obtain ⟨hlt, -⟩ := List.getElem?_eq_some.mp h2
  have hks : 2 ≤ ks.length := by
    have hle := tokenize_length_le (ks.map Prod.snd)
    rw [List.length_map] at hle
    omega
  have ht : (featuresOf ks).terminal_triggered = true := by
    rw [featuresOf_terminal]
    exact hasTrigger_of_pair _ i k1 k2 h1 h2 hp
  refine ⟨extract_features_eq_some hks, ht, ?_⟩
  by_cases hs : (featuresOf ks).avg_speed ≥ d.rubberducky_speed_threshold
  · rw [predict_speed_case d _ hs]
  · unfold predict
    rw [if_neg hs, if_pos ht]

theorem terminal_pair_forces_ducky_witness :
    extract_features winR = some (featuresOf winR) ∧
    (featuresOf winR).terminal_triggered = true ∧
    (predict (mkDetector none) (featuresOf winR)).1 = some Classification.USB_DUCKY :=
  terminal_pair_forces_ducky winR (mkDetector none) 0 (str "win") (str "r")
    (by decide) (by decide) (Or.inl ⟨Or.inr rfl, rfl⟩)

/-- C10: the analysis pass gates on a strictly larger minimum than the
extractor's two-event bound: a window of 2 to 4 keystrokes (where
extraction succeeds) makes `analyze_device_with_ml` return with the
registry unchanged, no enforcement calls and no classifier consultation,
and conversely the classifier is only ever consulted for windows of at
least 5 keystrokes. -/
theorem analyze_small_window (d : USBRubberDuckyDetector) (devcon : Bool)
    (vid pid serial : Str) (db : DB) (ks : List (ℚ × Str))
    (h5 : ks.length < 5) :
    analyze_device_with_ml d devcon ks vid pid serial db = .ok (db, [], false) := by
  unfold analyze_device_with_ml
  cases hx : extract_features ks with
  | none => rfl
  | some f =>
    obtain ⟨hk2, hf⟩ := extract_features_some_inv hx
    dsimp only
    rw [if_pos (show f.total_keys_5sec < 5 by rw [hf, featuresOf_total]; omega)]

theorem small_window_no_classification (d : USBRubberDuckyDetector)
    (devcon : Bool) (vid pid serial : Str) (db : DB) :
    (∀ ks : List (ℚ × Str), 2 ≤ ks.length → ks.length ≤ 4 →
      analyze_device_with_ml d devcon ks vid pid serial db = .ok (db, [], false)) ∧
    (∀ (ks : List (ℚ × Str)) (db2 : DB) (calls : List EnfCall) (clf : Bool),
      analyze_device_with_ml d devcon ks vid pid serial db = .ok (db2, calls, clf) →
      clf = true → 5 ≤ ks.length) := by
  constructor
  · intro ks h2 h4
    exact analyze_small_window d devcon vid pid serial db ks (by omega)
  · intro ks db2 calls clf h hclf
    by_contra hlt
    rw [analyze_small_window d devcon vid pid serial db ks (by omega)] at h
    simp only [Except.ok.injEq, Prod.mk.injEq] at h
    rw [← h.2.2] at hclf
    simp at hclf

theorem small_window_no_classification_witness :
    analyze_device_with_ml (mkDetector none) false twoKeys
        (str "0781") (str "5567") (str "AB12") dbEmpty
      = .ok (dbEmpty, [], false) :=
  (small_window_no_classification (mkDetector none) false
      (str "0781") (str "5567") (str "AB12") dbEmpty).1
    twoKeys (by decide) (by decide)

/-- C2: with no trained model loaded and neither hard override firing,
`predict` does return `(None, None, [])`; but the calling analysis pass
then crashes with an uncaught `TypeError` while printing the `None`
confidence with a float format, before touching the registry row — the
code does not degrade gracefully as the spec requires. -/
theorem no_model_inconclusive_crash :
    predict (mkDetector none) (featuresOf slowWindow) = (none, none, []) ∧
    analyze_device_with_ml (mkDetector none) false slowWindow
        (str "0781") (str "5567") (str "AB12") dbEmpty
      = .error "TypeError: unsupported format string passed to NoneType" := by
  have havg : (featuresOf slowWindow).avg_speed = 5000 / 4001 := by
    have h0 : (featuresOf slowWindow).avg_speed
        = ((5 : ℕ) : ℚ) / ((4 : ℚ) - (0 : ℚ) + 1 / 1000) := rfl
    rw [h0]
    norm_num
  have hterm : (featuresOf slowWindow).terminal_triggered = false := by decide
  have hslow : ¬ (featuresOf slowWindow).avg_speed ≥ (mkDetector none).rubberducky_speed_threshold := by
    rw [havg]
    show ¬ (5000 : ℚ) / 4001 ≥ 100
    norm_num
  have hp : predict (mkDetector none) (featuresOf slowWindow) = (none, none, []) := by
    unfold predict
    rw [if_neg hslow, if_neg (by simp [hterm])]
    rfl
  refine ⟨hp, ?_⟩
  unfold analyze_device_with_ml
  rw [extract_features_eq_some (by decide : 2 ≤ slowWindow.length)]
  dsimp only
  rw [if_neg (show ¬ (featuresOf slowWindow).total_keys_5sec < 5 by decide)]
  rw [hp]

theorem mem_of_mem_pyStrip {c : Char} {t : Str} (h : c ∈ pyStrip t) : c ∈ t := by
  unfold pyStrip at h
  rw [List.mem_reverse] at h
  have h2 : c ∈ (t.dropWhile pyWhitespace).reverse :=
    (List.dropWhile_sublist _).subset h
  rw [List.mem_reverse] at h2
  exact (List.dropWhile_sublist _).subset h2

/-- C8 counterexample: on the serial `" a "` (all of whose characters
are printable, the spaces included), the Linux `normalize_serial`
returns `"a"`, not the unchanged printable-character sequence `" a "`:
the `strip()` call also removes the surrounding whitespace, so the
result is not exactly the printable characters of the input. -/
theorem normalize_serial_not_identity_on_printables_cex :
    normalize_serial (some (str " a ")) = str "a" ∧
    (str " a ").filter pyPrintable = str " a " ∧
    str "a" ≠ str " a " := by
  refine ⟨by decide, by decide, by decide⟩

/-- C8 (amended): `normalize_serial` maps an absent or empty serial to
`"NoSerial"`; a non-empty serial is reduced to its printable characters
with leading and trailing whitespace then stripped, falling back to
`"NoSerial"` when nothing remains; and the result always consists of
printable characters only. -/
theorem normalize_serial_spec (s : Str) (hne : s ≠ []) :
    normalize_serial none = str "NoSerial" ∧
    normalize_serial (some []) = str "NoSerial" ∧
    normalize_serial (some s)
      = (if pyStrip (s.filter pyPrintable) = [] then str "NoSerial"
         else pyStrip (s.filter pyPrintable)) ∧
    (normalize_serial (some s)).all pyPrintable = true := by
  have h1 : normalize_serial (some s)
      = (if pyStrip (s.filter pyPrintable) = [] then str "NoSerial"
         else pyStrip (s.filter pyPrintable)) := by
    unfold normalize_serial
    dsimp only
    rw [if_neg hne]
  refine ⟨rfl, rfl, h1, ?_⟩
  rw [h1]
  split
  · decide
  · rw [List.all_eq_true]
    intro c hc
    exact (List.mem_filter.mp (mem_of_mem_pyStrip hc)).2

theorem normalize_serial_spec_witness :
    normalize_serial none = str "NoSerial" ∧
    normalize_serial (some []) = str "NoSerial" ∧
    normalize_serial (some (str " a "))
      = (if pyStrip ((str " a ").filter pyPrintable) = [] then str "NoSerial"
         else pyStrip ((str " a ").filter pyPrintable)) ∧
    (normalize_serial (some (str " a "))).all pyPrintable = true :=
  normalize_serial_spec (str " a ") (by decide)

theorem keyMatch_iff (vid pid serial : Str) (r : Row) :
    keyMatch vid pid serial r = true ↔ rowKey r = (vid, pid, serial) := by
  simp only [keyMatch, rowKey, Bool.and_eq_true, decide_eq_true_eq, Prod.mk.injEq]
  tauto

theorem unique_mem_key_eq {db : DB} (h : KeyUnique db) {r1 r2 : Row}
    (h1 : r1 ∈ db.rows) (h2 : r2 ∈ db.rows) (hk : rowKey r1 = rowKey r2) :
    r1 = r2 := by
  by_contra hne
  have hsymm : Symmetric fun a b : Row => rowKey a ≠ rowKey b := by
    intro x y hxy hk2
    exact hxy hk2.symm
  exact (h.forall hsymm h1 h2 hne) hk

theorem pairwise_key_map {rows : List Row} {F : Row → Row}
    (hF : ∀ r, rowKey (F r) = rowKey r)
    (h : rows.Pairwise fun a b => rowKey a ≠ rowKey b) :
    (rows.map F).Pairwise fun a b => rowKey a ≠ rowKey b := by
  rw [List.pairwise_map]
  exact h.imp fun {a b} hab => by rw [hF, hF]; exact hab

theorem touchF_key (rid now : ℕ) (r : Row) :
    rowKey (if r.id = rid then { r with last_seen := now } else r) = rowKey r := by
  split <;> rfl

theorem blockF_key (vid pid serial : Str) (r : Row) :
    rowKey (if keyMatch vid pid serial r then
      { r with threat_level := .high, device_type := .blocked } else r) = rowKey r := by
  split <;> rfl

theorem lowF_key (vid pid serial : Str) (r : Row) :
    rowKey (if keyMatch vid pid serial r then
      { r with threat_level := .low } else r) = rowKey r := by
  split <;> rfl

theorem touch_keyUnique {db : DB} (rid now : ℕ) (h : KeyUnique db) :
    KeyUnique (db.touchLastSeen rid now) :=
  pairwise_key_map (touchF_key rid now) h

theorem touch_image_frozen (r : Row) (rid now : ℕ) :
    ∃ n, (if r.id = rid then { r with last_seen := now } else r)
      = { r with last_seen := n } := by
  by_cases h : r.id = rid
  · exact ⟨now, by rw [if_pos h]⟩
  · exact ⟨r.last_seen, by rw [if_neg h]⟩

theorem mem_touch_of_mem {db : DB} {rid now : ℕ} {r : Row} (hr : r ∈ db.rows) :
    (if r.id = rid then { r with last_seen := now } else r)
      ∈ (db.touchLastSeen rid now).rows :=
  List.mem_map_of_mem _ hr

theorem mem_updateByKey_of_mem {db : DB} {vid pid serial : Str} {F : Row → Row}
    {r : Row} (hr : r ∈ db.rows) :
    (if keyMatch vid pid serial r then F r else r)
      ∈ (db.updateByKey vid pid serial F).rows :=
  List.mem_map_of_mem _ hr

theorem mem_updateByKey_of_mem_ne {db : DB} {vid pid serial : Str} {F : Row → Row}
    {r : Row} (hr : r ∈ db.rows) (hne : rowKey r ≠ (vid, pid, serial)) :
    r ∈ (db.updateByKey vid pid serial F).rows := by
  have himg := @mem_updateByKey_of_mem db vid pid serial F r hr
  rw [if_neg (fun hk => hne ((keyMatch_iff _ _ _ _).mp hk))] at himg
  exact himg

theorem mem_of_mem_updateByKey {db : DB} {vid pid serial : Str} {F : Row → Row}
    {r2 : Row} (h : r2 ∈ (db.updateByKey vid pid serial F).rows) :
    ∃ r ∈ db.rows, r2 = if keyMatch vid pid serial r then F r else r := by
  obtain ⟨r, hr, himg⟩ := List.mem_map.mp h
  exact ⟨r, hr, himg.symm⟩

theorem countP_eq_one_of_pairwise :
    ∀ (l : List Row) (vid pid serial : Str),
      (l.Pairwise fun a b => rowKey a ≠ rowKey b) →
      (∃ r ∈ l, rowKey r = (vid, pid, serial)) →
      l.countP (keyMatch vid pid serial) = 1 := by
  intro l vid pid serial hp hex
  induction l with
  | nil => simp at hex
  | cons a t ih =>
    rw [List.pairwise_cons] at hp
    rw [List.countP_cons]
    obtain ⟨r, hr, hkey⟩ := hex
    rcases List.mem_cons.mp hr with rfl | hrt
    · have hyes : keyMatch vid pid serial r = true := (keyMatch_iff _ _ _ _).mpr hkey
      have hz : t.countP (keyMatch vid pid serial) = 0 := by
        rw [List.countP_eq_zero]
        intro b hb hkb
        exact hp.1 b hb (hkey.trans ((keyMatch_iff _ _ _ _).mp hkb).symm)
      rw [hz, hyes]
      simp
    · have hno : keyMatch vid pid serial a = false := by
        rw [Bool.eq_false_iff]
        intro hk
        exact hp.1 r hrt (((keyMatch_iff _ _ _ _).mp hk).trans hkey.symm)
      rw [ih hp.2 ⟨r, hrt, hkey⟩, hno]
      simp

theorem analyze_ok_shape {d : USBRubberDuckyDetector} {devcon : Bool}
    {ks : List (ℚ × Str)} {vid pid serial : Str} {db db2 : DB}
    {calls : List EnfCall} {clf : Bool}
    (h : analyze_device_with_ml d devcon ks vid pid serial db = .ok (db2, calls, clf)) :
    db2 = db ∨
    db2 = db.updateByKey vid pid serial
        (fun r => { r with threat_level := .high, device_type := .blocked }) ∨
    db2 = db.updateByKey vid pid serial (fun r => { r with threat_level := .low }) := by
  unfold analyze_device_with_ml at h
  cases hx : extract_features ks with
  | none =>
    rw [hx] at h
    simp only [Except.ok.injEq, Prod.mk.injEq] at h
    exact Or.inl h.1.symm
  | some f =>
    rw [hx] at h
    dsimp only at h
    split at h
    · simp only [Except.ok.injEq, Prod.mk.injEq] at h
      exact Or.inl h.1.symm
    · cases hc : (predict d f).2.1 with
      | none =>
        rw [hc] at h
        simp at h
      | some q =>
        rw [hc] at h
        dsimp only at h
        split at h
        · simp only [Except.ok.injEq, Prod.mk.injEq] at h
          exact Or.inr (Or.inl h.1.symm)
        · simp only [Except.ok.injEq, Prod.mk.injEq] at h
          exact Or.inr (Or.inr h.1.symm)

theorem analyze_rows_facts {d : USBRubberDuckyDetector} {devcon : Bool}
    {ks : List (ℚ × Str)} {vid pid serial : Str} {dbx db2 : DB}
    {calls : List EnfCall} {clf : Bool}
    (hU : KeyUnique dbx)
    (hun : ∀ r ∈ dbx.rows, rowKey r = (vid, pid, serial) → r.device_type = .unknown)
    (h : analyze_device_with_ml d devcon ks vid pid serial dbx = .ok (db2, calls, clf)) :
    KeyUnique db2 ∧
    (∀ r ∈ dbx.rows, ∃ r2 ∈ db2.rows, rowKey r2 = rowKey r) ∧
    (∀ r ∈ dbx.rows, r.device_type ≠ .unknown → r ∈ db2.rows) := by
  rcases analyze_ok_shape h with rfl | hsh | hsh
  · exact ⟨hU, fun r hr => ⟨r, hr, rfl⟩, fun r hr _ => hr⟩
  · subst hsh
    refine ⟨pairwise_key_map (blockF_key vid pid serial) hU, ?_, ?_⟩
    · intro r hr
      exact ⟨_, mem_updateByKey_of_mem hr, blockF_key vid pid serial r⟩
    · intro r hr hdt
      exact mem_updateByKey_of_mem_ne hr fun hk => hdt (hun r hr hk)
  · subst hsh
    refine ⟨pairwise_key_map (lowF_key vid pid serial) hU, ?_, ?_⟩
    · intro r hr
      exact ⟨_, mem_updateByKey_of_mem hr, lowF_key vid pid serial r⟩
    · intro r hr hdt
      exact mem_updateByKey_of_mem_ne hr fun hk => hdt (hun r hr hk)

theorem step_ok_facts {d : USBRubberDuckyDetector} {devcon : Bool}
    {ks : List (ℚ × Str)} {vid pid serial : Str} {now : ℕ} {db db2 : DB}
    {calls : List EnfCall} {inv : Bool}
    (hU : KeyUnique db)
    (h : check_or_insert_device d devcon ks vid pid serial now db = .ok (db2, calls, inv)) :
    KeyUnique db2 ∧
    (∃ r2 ∈ db2.rows, rowKey r2 = (vid, pid, serial)) ∧
    (∀ r ∈ db.rows, ∃ r2 ∈ db2.rows, rowKey r2 = rowKey r) ∧
    (∀ r ∈ db.rows, r.device_type ≠ .unknown →
      ∃ n, { r with last_seen := n } ∈ db2.rows) ∧
    (∀ r ∈ db.rows, r.device_type ≠ .unknown → rowKey r = (vid, pid, serial) →
      inv = false) := by
  unfold check_or_insert_device at h
  cases hf : db.findByKey vid pid serial with
  | some row =>
    have hrowmem : row ∈ db.rows := List.mem_of_find?_eq_some hf
    have hrowmatch : keyMatch vid pid serial row = true := List.find?_some hf
    have hrowkey : rowKey row = (vid, pid, serial) := (keyMatch_iff _ _ _ _).mp hrowmatch
    rw [hf] at h
    dsimp only at h
    have hU1 : KeyUnique (db.touchLastSeen row.id now) := touch_keyUnique _ _ hU
    cases hdt : row.device_type with
    | whitelisted =>
      rw [hdt] at h
      simp only [Except.ok.injEq, Prod.mk.injEq] at h
      obtain ⟨hdb, -, hinv⟩ := h
      subst hdb
      refine ⟨hU1, ?_, ?_, ?_, fun _ _ _ _ => hinv.symm⟩
      · obtain ⟨n, himg⟩ := touch_image_frozen row row.id now
        refine ⟨{ row with last_seen := n }, ?_, hrowkey⟩
        rw [← himg]
        exact mem_touch_of_mem hrowmem
      · intro r hr
        exact ⟨_, mem_touch_of_mem hr, touchF_key row.id now r⟩
      · intro r hr _
        obtain ⟨n, himg⟩ := touch_image_frozen r row.id now
        refine ⟨n, ?_⟩
        rw [← himg]
        exact mem_touch_of_mem hr
    | blocked =>
      rw [hdt] at h
      simp only [Except.ok.injEq, Prod.mk.injEq] at h
      obtain ⟨hdb, -, hinv⟩ := h
      subst hdb
      refine ⟨hU1, ?_, ?_, ?_, fun _ _ _ _ => hinv.symm⟩
      · obtain ⟨n, himg⟩ := touch_image_frozen row row.id now
        refine ⟨{ row with last_seen := n }, ?_, hrowkey⟩
        rw [← himg]
        exact mem_touch_of_mem hrowmem
      · intro r hr
        exact ⟨_, mem_touch_of_mem hr, touchF_key row.id now r⟩
      · intro r hr _
        obtain ⟨n, himg⟩ := touch_image_frozen r row.id now
        refine ⟨n, ?_⟩
        rw [← himg]
        exact mem_touch_of_mem hr
    | unknown =>
      rw [hdt] at h
      dsimp only at h
      cases ha : analyze_device_with_ml d devcon ks vid pid serial
          (db.touchLastSeen row.id now) with
      | error e => rw [ha] at h; simp at h
      | ok trip =>
        obtain ⟨dbA, callsA, clfA⟩ := trip
        rw [ha] at h
        simp only [Except.ok.injEq, Prod.mk.injEq] at h
        obtain ⟨hdb, -, hinv⟩ := h
        subst hdb
        have hun1 : ∀ r1 ∈ (db.touchLastSeen row.id now).rows,
            rowKey r1 = (vid, pid, serial) → r1.device_type = .unknown := by
          intro r1 hr1 hk1
          obtain ⟨r0, hr0, himg⟩ := List.mem_map.mp hr1
          obtain ⟨n, hfr⟩ := touch_image_frozen r0 row.id now
          rw [hfr] at himg
          have hk0 : rowKey r0 = (vid, pid, serial) := by
            rw [← hk1, ← himg]
            rfl
          have : r0 = row := unique_mem_key_eq hU hr0 hrowmem (hk0.trans hrowkey.symm)
          rw [← himg]
          show r0.device_type = .unknown
          rw [this, hdt]
        obtain ⟨hUA, hkeysA, hfrozenA⟩ := analyze_rows_facts hU1 hun1 ha
        refine ⟨hUA, ?_, ?_, ?_, ?_⟩
        · obtain ⟨n, himg⟩ := touch_image_frozen row row.id now
          have hmem1 : { row with last_seen := n } ∈ (db.touchLastSeen row.id now).rows := by
            rw [← himg]
            exact mem_touch_of_mem hrowmem
          obtain ⟨r2, hr2, hk2⟩ := hkeysA _ hmem1
          exact ⟨r2, hr2, hk2.trans hrowkey⟩
        · intro r hr
          obtain ⟨n, himg⟩ := touch_image_frozen r row.id now
          have hmem1 : { r with last_seen := n } ∈ (db.touchLastSeen row.id now).rows := by
            rw [← himg]
            exact mem_touch_of_mem hr
          obtain ⟨r2, hr2, hk2⟩ := hkeysA _ hmem1
          exact ⟨r2, hr2, hk2⟩
        · intro r hr hdt2
          obtain ⟨n, himg⟩ := touch_image_frozen r row.id now
          have hmem1 : { r with last_seen := n } ∈ (db.touchLastSeen row.id now).rows := by
            rw [← himg]
            exact mem_touch_of_mem hr
          exact ⟨n, hfrozenA _ hmem1 hdt2⟩
        · intro r hr hdt2 hk2
          have : r = row := unique_mem_key_eq hU hr hrowmem (hk2.trans hrowkey.symm)
          rw [this, hdt] at hdt2
          exact absurd rfl hdt2
  | none =>
    have hnone : ∀ r ∈ db.rows, ¬ (keyMatch vid pid serial r = true) :=
      fun r hr => List.find?_eq_none.mp hf r hr
    rw [hf] at h
    dsimp only at h
    cases ha : analyze_device_with_ml d devcon ks vid pid serial
        (db.insertUnknown vid pid serial now) with
    | error e => rw [ha] at h; simp at h
    | ok trip =>
      obtain ⟨dbA, callsA, clfA⟩ := trip
      rw [ha] at h
      simp only [Except.ok.injEq, Prod.mk.injEq] at h
      obtain ⟨hdb, -, hinv⟩ := h
      subst hdb
      have hU1 : KeyUnique (db.insertUnknown vid pid serial now) := by
        unfold KeyUnique DB.insertUnknown
        rw [List.pairwise_append]
        refine ⟨hU, List.pairwise_singleton _ _, ?_⟩
        intro a ha2 b hb
        rw [List.mem_singleton] at hb
        subst hb
        intro hk
        exact hnone a ha2 ((keyMatch_iff _ _ _ _).mpr hk)
      have hun1 : ∀ r1 ∈ (db.insertUnknown vid pid serial now).rows,
          rowKey r1 = (vid, pid, serial) → r1.device_type = .unknown := by
        intro r1 hr1 hk1
        rcases List.mem_append.mp hr1 with hl | hrr
        · exact absurd ((keyMatch_iff _ _ _ _).mpr hk1) (hnone r1 hl)
        · rw [List.mem_singleton] at hrr
          rw [hrr]
      obtain ⟨hUA, hkeysA, hfrozenA⟩ := analyze_rows_facts hU1 hun1 ha
      have hnew : ∃ rn ∈ (db.insertUnknown vid pid serial now).rows,
          rowKey rn = (vid, pid, serial) := by
        unfold DB.insertUnknown
        exact ⟨_, List.mem_append_right _ (List.mem_singleton.mpr rfl), rfl⟩
      have hold : ∀ r ∈ db.rows, r ∈ (db.insertUnknown vid pid serial now).rows := by
        intro r hr
        unfold DB.insertUnknown
        exact List.mem_append_left _ hr
      refine ⟨hUA, ?_, ?_, ?_, ?_⟩
      · obtain ⟨rn, hrn, hkn⟩ := hnew
        obtain ⟨r2, hr2, hk2⟩ := hkeysA _ hrn
        exact ⟨r2, hr2, hk2.trans hkn⟩
      · intro r hr
        exact hkeysA _ (hold r hr)
      · intro r hr hdt2
        exact ⟨r.last_seen, hfrozenA _ (hold r hr) hdt2⟩
      · intro r hr hdt2 hk2
        exact absurd ((keyMatch_iff _ _ _ _).mpr hk2) (hnone r hr)

/-- C3: starting from any registry with unique identity keys, any
sequence of observations (`check_or_insert_device` calls) preserves key
uniqueness, leaves exactly one row per observed key, never deletes a
row's key, and mutates already whitelisted/blocked rows in no field but
`last_seen` — in particular their admission state never regresses to
unknown. -/
theorem observe_registry_invariants (d : USBRubberDuckyDetector) (devcon : Bool)
    (L : List Obs) (db db2 : DB) (flags : List Bool)
    (hU : KeyUnique db)
    (hrun : runObs d devcon L db = .ok (db2, flags)) :
    KeyUnique db2 ∧
    (∀ o ∈ L, db2.rows.countP (keyMatch o.usb_vid o.usb_pid o.usb_serial) = 1) ∧
    (∀ r ∈ db.rows, ∃ r2 ∈ db2.rows, rowKey r2 = rowKey r) ∧
    (∀ r ∈ db.rows, r.device_type = .whitelisted ∨ r.device_type = .blocked →
      ∃ n, { r with last_seen := n } ∈ db2.rows) := by
  induction L generalizing db flags with
  | nil =>
    unfold runObs at hrun
    simp only [Except.ok.injEq, Prod.mk.injEq] at hrun
    obtain ⟨hdb, -⟩ := hrun
    subst hdb
    exact ⟨hU, by simp, fun r hr => ⟨r, hr, rfl⟩,
      fun r hr _ => ⟨r.last_seen, hr⟩⟩
  | cons o rest ih =>
    unfold runObs at hrun
    cases hstep : check_or_insert_device d devcon o.keystrokes o.usb_vid
        o.usb_pid o.usb_serial o.now db with
    | error e => rw [hstep] at hrun; simp at hrun
    | ok trip =>
      obtain ⟨db1, callsS, invS⟩ := trip
      rw [hstep] at hrun
      dsimp only at hrun
      cases hrest : runObs d devcon rest db1 with
      | error e => rw [hrest] at hrun; simp at hrun
      | ok pair =>
        obtain ⟨dbF, flagsR⟩ := pair
        rw [hrest] at hrun
        simp only [Except.ok.injEq, Prod.mk.injEq] at hrun
        obtain ⟨hdb2, hflags⟩ := hrun
        subst hdb2
        obtain ⟨hU1, hkey1, hkeys1, hfro1, -⟩ := step_ok_facts hU hstep
        obtain ⟨hU2, hcount2, hkeys2, hfro2⟩ := ih db1 flagsR hU1 hrest
        refine ⟨hU2, ?_, ?_, ?_⟩
        · intro o2 ho2
          rcases List.mem_cons.mp ho2 with rfl | ho2r
          · obtain ⟨r1, hr1, hk1⟩ := hkey1
            obtain ⟨r2, hr2, hk2⟩ := hkeys2 r1 hr1
            exact countP_eq_one_of_pairwise _ _ _ _ hU2 ⟨r2, hr2, hk2.trans hk1⟩
          · exact hcount2 o2 ho2r
        · intro r hr
          obtain ⟨r1, hr1, hk1⟩ := hkeys1 r hr
          obtain ⟨r2, hr2, hk2⟩ := hkeys2 r1 hr1
          exact ⟨r2, hr2, hk2.trans hk1⟩
        · intro r hr hwb
          have hdtne : r.device_type ≠ .unknown := by
            rcases hwb with h | h <;> rw [h] <;> intro hc <;> cases hc
          obtain ⟨n1, hmem1⟩ := hfro1 r hr hdtne
          obtain ⟨n2, hmem2⟩ := hfro2 _ hmem1 hwb
          exact ⟨n2, hmem2⟩

theorem observe_registry_invariants_witness :
    KeyUnique dbAfterTwo ∧
    (∀ o ∈ [obsA, obsB], dbAfterTwo.rows.countP
      (keyMatch o.usb_vid o.usb_pid o.usb_serial) = 1) ∧
    (∀ r ∈ dbEmpty.rows, ∃ r2 ∈ dbAfterTwo.rows, rowKey r2 = rowKey r) ∧
    (∀ r ∈ dbEmpty.rows,
      r.device_type = .whitelisted ∨ r.device_type = .blocked →
      ∃ n, { r with last_seen := n } ∈ dbAfterTwo.rows) :=
  observe_registry_invariants (mkDetector none) false [obsA, obsB]
    dbEmpty dbAfterTwo [true, true] (List.Pairwise.nil) (by rfl)

/-- C4: a device whose registry row is already whitelisted or blocked
never triggers an analysis pass: over any sequence of observations (no
administrative action interleaved), every observation of that identity
key reports `analyze_device_with_ml` not invoked. -/
theorem frozen_device_never_reanalyzed (d : USBRubberDuckyDetector)
    (devcon : Bool) (L : List Obs) (db db2 : DB) (flags : List Bool)
    (vid pid serial : Str) (r0 : Row)
    (hU : KeyUnique db) (hmem : r0 ∈ db.rows)
    (hkey : rowKey r0 = (vid, pid, serial))
    (hstate : r0.device_type = .whitelisted ∨ r0.device_type = .blocked)
    (hrun : runObs d devcon L db = .ok (db2, flags)) :
    ∀ p ∈ L.zip flags, p.1.key = (vid, pid, serial) → p.2 = false := by
  induction L generalizing db flags r0 with
  | nil =>
    unfold runObs at hrun
    simp only [Except.ok.injEq, Prod.mk.injEq] at hrun
    obtain ⟨-, hflags⟩ := hrun
    subst hflags
    intro p hp
    simp at hp
  | cons o rest ih =>
    unfold runObs at hrun
    cases hstep : check_or_insert_device d devcon o.keystrokes o.usb_vid
        o.usb_pid o.usb_serial o.now db with
    | error e => rw [hstep] at hrun; simp at hrun
    | ok trip =>
      obtain ⟨db1, callsS, invS⟩ := trip
      rw [hstep] at hrun
      dsimp only at hrun
      cases hrest : runObs d devcon rest db1 with
      | error e => rw [hrest] at hrun; simp at hrun
      | ok pair =>
        obtain ⟨dbF, flagsR⟩ := pair
        rw [hrest] at hrun
        simp only [Except.ok.injEq, Prod.mk.injEq] at hrun
        obtain ⟨hdb2, hflags⟩ := hrun
        subst hdb2
        subst hflags
        have hdtne : r0.device_type ≠ .unknown := by
          rcases hstate with h | h <;> rw [h] <;> intro hc <;> cases hc
        obtain ⟨hU1, -, -, hfro1, hinv5⟩ := step_ok_facts hU hstep
        obtain ⟨n1, hmem1⟩ := hfro1 r0 hmem hdtne
        intro p hp hpk
        rw [List.zip_cons_cons] at hp
        rcases List.mem_cons.mp hp with rfl | htail
        · exact hinv5 r0 hmem hdtne (hkey.trans hpk.symm)
        · exact ih db1 flagsR { r0 with last_seen := n1 } hU1 hmem1 hkey
            hstate hrest p htail hpk

theorem frozen_device_never_reanalyzed_witness :
    (obsB, false) ∈ [obsB].zip [false] ∧
    (obsB, false).1.key = (str "0781", str "5567", str "AB12") ∧
    (obsB, false).2 = false :=
  ⟨List.mem_singleton.mpr rfl, rfl,
    frozen_device_never_reanalyzed (mkDetector none) false [obsB] dbWL
      dbWLAfter [false] (str "0781") (str "5567") (str "AB12") rowWL
      (List.pairwise_singleton _ _) (List.mem_singleton.mpr rfl) rfl
      (Or.inl rfl) rfl (obsB, false) (List.mem_singleton.mpr rfl) rfl⟩

theorem predict_classification_confidence (d : USBRubberDuckyDetector) (f : Features) :
    ((predict d f).1 = none ∧ (predict d f).2.1 = none) ∨
    (∃ c q, (predict d f).1 = some c ∧ (predict d f).2.1 = some q) := by
  unfold predict
  split
  · exact Or.inr ⟨_, _, rfl, rfl⟩
  · split
    · exact Or.inr ⟨_, _, rfl, rfl⟩
    · split
      · exact Or.inl ⟨rfl, rfl⟩
      · dsimp only
        split
        · exact Or.inr ⟨_, _, rfl, rfl⟩
        · exact Or.inr ⟨_, _, rfl, rfl⟩

/-- C9: an administrative `block` commits the row to blocked/high and
issues exactly one Enforcement Gateway block call when the backend is
present and none otherwise; `allow` likewise commits whitelisted/low
with exactly one allow call; the committed registry state is identical
whether or not the backend is available (enforcement failure cannot
roll it back, the call's result being ignored); and the automatic
USB_DUCKY verdict path of the analysis pass commits blocked/high with
exactly one block call under the same best-effort rule. -/
theorem blocked_whitelisted_enforcement_pairing (devcon : Bool)
    (device_id : ℕ) (db : DB) (row : Row)
    (hfind : db.rows.find? (fun r => r.id = device_id) = some row) :
    ((update_device devcon device_id (str "block") db).1
      = { db with rows := db.rows.map fun r =>
          if r.id = device_id then
            { r with device_type := .blocked, threat_level := .high }
          else r } ∧
     (update_device devcon device_id (str "block") db).2.1
      = (if devcon then [EnfCall.block row.usb_vid row.usb_pid] else []) ∧
     (update_device devcon device_id (str "block") db).2.2 = 200) ∧
    (update_device true device_id (str "block") db).1
      = (update_device false device_id (str "block") db).1 ∧
    ((update_device devcon device_id (str "allow") db).1
      = { db with rows := db.rows.map fun r =>
          if r.id = device_id then
            { r with device_type := .whitelisted, threat_level := .low }
          else r } ∧
     (update_device devcon device_id (str "allow") db).2.1
      = (if devcon then [EnfCall.allow row.usb_vid row.usb_pid] else []) ∧
     (update_device devcon device_id (str "allow") db).2.2 = 200) ∧
    (update_device true device_id (str "allow") db).1
      = (update_device false device_id (str "allow") db).1 ∧
    (∀ (d : USBRubberDuckyDetector) (ks : List (ℚ × Str))
       (vid pid serial : Str) (db0 : DB) (f : Features),
      extract_features ks = some f → ¬ f.total_keys_5sec < 5 →
      (predict d f).1 = some Classification.USB_DUCKY →
      analyze_device_with_ml d devcon ks vid pid serial db0
        = .ok (db0.updateByKey vid pid serial
            (fun r => { r with threat_level := .high, device_type := .blocked }),
          if devcon then [EnfCall.block vid pid] else [], true)) := by
  have hb : ∀ dc : Bool, update_device dc device_id (str "block") db
      = ({ db with rows := db.rows.map fun r =>
            if r.id = device_id then
              { r with device_type := .blocked, threat_level := .high }
            else r },
         (if dc then [EnfCall.block row.usb_vid row.usb_pid] else []), 200) := by
    intro dc
    unfold update_device
    rw [hfind]
    dsimp only
    rw [if_neg (show ¬ (str "block" = str "allow") by decide)]
    rw [if_pos rfl]
  have hal : ∀ dc : Bool, update_device dc device_id (str "allow") db
      = ({ db with rows := db.rows.map fun r =>
            if r.id = device_id then
              { r with device_type := .whitelisted, threat_level := .low }
            else r },
         (if dc then [EnfCall.allow row.usb_vid row.usb_pid] else []), 200) := by
    intro dc
    unfold update_device
    rw [hfind]
    dsimp only
    rw [if_pos rfl]
  refine ⟨⟨by rw [hb devcon], by rw [hb devcon], by rw [hb devcon]⟩,
    by rw [hb true, hb false],
    ⟨by rw [hal devcon], by rw [hal devcon], by rw [hal devcon]⟩,
    by rw [hal true, hal false], ?_⟩
  intro d ks vid pid serial db0 f hx h5 hduck
  rcases predict_classification_confidence d f with ⟨hc1, -⟩ | ⟨c, q, hc1, hc2⟩
  · rw [hc1] at hduck
    exact Option.noConfusion hduck
  · unfold analyze_device_with_ml
    rw [hx]
    dsimp only
    rw [if_neg h5, hc2]
    dsimp only
    rw [if_pos hduck]

theorem blocked_whitelisted_enforcement_pairing_witness :
    ((update_device true 7 (str "block") dbWL).1
      = { dbWL with rows := dbWL.rows.map fun r =>
          if r.id = 7 then
            { r with device_type := .blocked, threat_level := .high }
          else r } ∧
     (update_device true 7 (str "block") dbWL).2.1
      = (if true then [EnfCall.block rowWL.usb_vid rowWL.usb_pid] else []) ∧
     (update_device true 7 (str "block") dbWL).2.2 = 200) ∧
    (update_device true 7 (str "block") dbWL).1
      = (update_device false 7 (str "block") dbWL).1 ∧
    ((update_device true 7 (str "allow") dbWL).1
      = { dbWL with rows := dbWL.rows.map fun r =>
          if r.id = 7 then
            { r with device_type := .whitelisted, threat_level := .low }
          else r } ∧
     (update_device true 7 (str "allow") dbWL).2.1
      = (if true then [EnfCall.allow rowWL.usb_vid rowWL.usb_pid] else []) ∧
     (update_device true 7 (str "allow") dbWL).2.2 = 200) ∧
    (update_device true 7 (str "allow") dbWL).1
      = (update_device false 7 (str "allow") dbWL).1 ∧
    (∀ (d : USBRubberDuckyDetector) (ks : List (ℚ × Str))
       (vid pid serial : Str) (db0 : DB) (f : Features),
      extract_features ks = some f → ¬ f.total_keys_5sec < 5 →
      (predict d f).1 = some Classification.USB_DUCKY →
      analyze_device_with_ml d true ks vid pid serial db0
        = .ok (db0.updateByKey vid pid serial
            (fun r => { r with threat_level := .high, device_type := .blocked }),
          if true then [EnfCall.block vid pid] else [], true)) :=
  blocked_whitelisted_enforcement_pairing true 7 dbWL rowWL rfl
